import Mathlib

/-!
Verification of the streaming-offset management subsystem of
`easy_rec/python/input/kafka_input.py` (class `KafkaInput`), as a shallow
embedding: Python dicts keyed by `int` become functions `Int → Option Int`,
fallible code (exceptions raised inside `__init__`, `_parse_offset`,
`restore`) returns `Option`, and the loops of the source are mirrored by
structural recursion / folds over lists.
-/

namespace EasyRec

/-- A Python dict mapping partition id (an `int`) to an offset (an `int`).
`none` models a missing key. -/
def OffsetMap := Int → Option Int

/-- The empty dict `{}`. -/
def emptyOffsets : OffsetMap := fun _ => none

/-- `d[k] = v` on a Python dict: set key `k` to `v`, overwriting. -/
def mapSet (m : OffsetMap) (k v : Int) : OffsetMap :=
  fun p => if p = k then some v else m p

/-- The offset value used by `_get_topics`: `self._offset_dict.get(part_id, 0)`. -/
def startOffset (m : OffsetMap) (p : Int) : Int :=
  (m p).getD 0

/-- One tracker update, mirroring the body of `_parse_offset`:
`if k not in self._task_offset_dict or v > self._task_offset_dict[k]:
  self._task_offset_dict[k] = v`. -/
def observeOffset (m : OffsetMap) (k v : Int) : OffsetMap :=
  match m k with
  | none => mapSet m k v
  | some w => if w < v then mapSet m k v else m

/-- One fold step of the tracker over a `(partition, offset)` pair. -/
def trackStep (m : OffsetMap) (kv : Int × Int) : OffsetMap :=
  observeOffset m kv.1 kv.2

/-- The tracker state after observing a sequence of pairs starting from the
empty dict. -/
def trackOffsets (obs : List (Int × Int)) : OffsetMap :=
  obs.foldl trackStep emptyOffsets

/-- The offsets observed for partition `p`, in observation order. -/
def offsetsFor (p : Int) (obs : List (Int × Int)) : List Int :=
  (obs.filter (fun kv => kv.1 == p)).map Prod.snd

/-- Maximum of a list of offsets, `none` on the empty list. -/
def maxOfList : List Int → Option Int
  | [] => none
  | x :: xs =>
    match maxOfList xs with
    | none => some x
    | some m => some (max x m)

/-- Max of two optional offsets, `none` acting as the absent element. -/
def omax : Option Int → Option Int → Option Int
  | none, b => b
  | some a, none => some a
  | some a, some b => some (max a b)

/-- Order on dict lookups: a missing key is below everything; a present
offset may only grow. -/
def offsetLe : Option Int → Option Int → Prop
  | none, _ => True
  | some _, none => False
  | some a, some b => a ≤ b

theorem mapSet_lookup (m : OffsetMap) (k v p : Int) :
    mapSet m k v p = if p = k then some v else m p := rfl

theorem observeOffset_lookup (m : OffsetMap) (k v p : Int) :
    observeOffset m k v p = if p = k then omax (m p) (some v) else m p := by
  unfold observeOffset
  by_cases hpk : p = k
  · subst hpk
    cases hm : m p with
    | none => simp [mapSet_lookup, hm, omax]
    | some w =>
      by_cases hwv : w < v
      · simp [hwv, mapSet_lookup, hm, omax, max_eq_right (le_of_lt hwv)]
      · simp [hwv, hm, omax, max_eq_left (not_lt.mp hwv)]
  · cases hm : m k with
    | none => simp [mapSet_lookup, hpk]
    | some w =>
      by_cases hwv : w < v
      · simp [hwv, mapSet_lookup, hpk]
      · simp [hwv, hpk]

theorem omax_assoc (a b c : Option Int) :
    omax (omax a b) c = omax a (omax b c) := by
  cases a <;> cases b <;> cases c <;> simp [omax, max_assoc]

theorem maxOfList_cons (x : Int) (xs : List Int) :
    maxOfList (x :: xs) = omax (some x) (maxOfList xs) := by
  cases h : maxOfList xs <;> simp [maxOfList, h, omax]

theorem offsetsFor_cons (p : Int) (kv : Int × Int) (obs : List (Int × Int)) :
    offsetsFor p (kv :: obs) =
      if kv.1 = p then kv.2 :: offsetsFor p obs else offsetsFor p obs := by
  by_cases h : kv.1 = p <;> simp [offsetsFor, List.filter_cons, h]

theorem trackFold_lookup (p : Int) :
    ∀ (obs : List (Int × Int)) (m : OffsetMap),
      (obs.foldl trackStep m) p = omax (m p) (maxOfList (offsetsFor p obs)) := by
  intro obs
  induction obs with
  | nil => intro m; cases h : m p <;> simp [offsetsFor, maxOfList, omax, h]
  | cons kv rest ih =>
    intro m
    rw [List.foldl_cons, ih, offsetsFor_cons]
    by_cases h : kv.1 = p
    · rw [if_pos h, maxOfList_cons, ← omax_assoc, trackStep,
        observeOffset_lookup, if_pos h.symm]
    · rw [if_neg h, trackStep, observeOffset_lookup,
        if_neg (fun hc => h hc.symm)]

/-- C4: after observing any finite interleaving of `(partition, offset)`
pairs, the tracker dict holds, for each partition `p`, exactly the maximum
offset observed for `p` (and nothing when `p` was never observed); moreover
each single observation can only move a partition's tracked value upward
(the update is a max, never a lowering overwrite). -/
theorem C4_tracker_max (obs : List (Int × Int)) (p : Int) :
    trackOffsets obs p = maxOfList (offsetsFor p obs) ∧
    ∀ (m : OffsetMap) (k v : Int), offsetLe (m p) (observeOffset m k v p) := by
  constructor
  · rw [trackOffsets, trackFold_lookup]
    simp [emptyOffsets, omax]
  · intro m k v
    rw [observeOffset_lookup]
    by_cases h : p = k
    · rw [if_pos h]
      cases hm : m p with
      | none => simp [offsetLe]
      | some w => simp [omax, offsetLe]
    · rw [if_neg h]
      cases hm : m p with
      | none => simp [offsetLe]
      | some w => simp [offsetLe]

/-- Effective task count in `_get_topics`: with `chief_redundant` and
training mode, `task_num = max(task_num - 1, 1)`. Python's `int` arithmetic
agrees with truncated `Nat` subtraction here because `max` clips at 1. -/
def effectiveTaskNum (taskNum : Nat) (chiefRedundant isTrain : Bool) : Nat :=
  if chiefRedundant && isTrain then max (taskNum - 1) 1 else taskNum

/-- Effective task index in `_get_topics`: with `chief_redundant` and
training mode, `task_index = max(task_index - 1, 0)`; Python's
`max(task_index - 1, 0)` on ints coincides with `Nat` truncated subtraction. -/
def effectiveTaskIndex (taskIndex : Nat) (chiefRedundant isTrain : Bool) : Nat :=
  if chiefRedundant && isTrain then max (taskIndex - 1) 0 else taskIndex

/-- The partitions assigned to a task, mirroring the loop
`for part_id in range(self._num_partition): if (part_id % task_num) == task_index`. -/
def assignedPartitions (numPartition taskNum taskIndex : Nat) : List Nat :=
  (List.range numPartition).filter (fun p => p % taskNum == taskIndex)

/-- The assignment actually computed by `_get_topics`, after the
chief-redundant adjustment of task index and task count. -/
def assignedEffective (numPartition taskNum taskIndex : Nat)
    (chiefRedundant isTrain : Bool) : List Nat :=
  assignedPartitions numPartition
    (effectiveTaskNum taskNum chiefRedundant isTrain)
    (effectiveTaskIndex taskIndex chiefRedundant isTrain)

/-- The dict `self._task_offset_dict` as rebuilt by `_get_topics`:
`self._task_offset_dict[part_id] = offset` with
`offset = self._offset_dict.get(part_id, 0)`, over the assigned partitions. -/
def taskOffsetInit (m : OffsetMap) (parts : List Nat) : OffsetMap :=
  parts.foldl (fun d (q : Nat) => mapSet d (q : Int) (startOffset m (q : Int)))
    emptyOffsets

/-- `_get_topics` as a whole: build the `topic:partition:offset` triples
(partition and offset components only; the topic name is passed through
unchanged) and the rebuilt `_task_offset_dict`; the final
`assert len(topics) > 0` is modelled by returning `none`. -/
def getTopics (numPartition taskNum taskIndex : Nat)
    (chiefRedundant isTrain : Bool) (m : OffsetMap) :
    Option (List (Nat × Int) × OffsetMap) :=
  let parts := assignedEffective numPartition taskNum taskIndex chiefRedundant isTrain
  let topics : List (Nat × Int) := parts.map (fun p => (p, startOffset m (p : Int)))
  if 0 < topics.length then some (topics, taskOffsetInit m parts) else none

theorem mem_assignedPartitions (numPartition taskNum taskIndex p : Nat) :
    p ∈ assignedPartitions numPartition taskNum taskIndex ↔
      p < numPartition ∧ p % taskNum = taskIndex := by
  simp [assignedPartitions, List.mem_filter, List.mem_range]

/-- C5: without redundant-leader mode, every partition is assigned to
exactly one task index (namely `p % task_num`), the tasks' assignments are
pairwise disjoint and stay inside the partition range, and with 4
partitions and 2 tasks, task 0 gets `[0, 2]` and task 1 gets `[1, 3]`. -/
theorem C5_partition_assignment (numPartition taskNum : Nat)
    (h1 : 0 < taskNum) (h2 : taskNum ≤ numPartition) :
    (∀ p, p < numPartition →
      ∃ ti, ti < taskNum ∧ p ∈ assignedPartitions numPartition taskNum ti) ∧
    (∀ ti₁ ti₂ p, p ∈ assignedPartitions numPartition taskNum ti₁ →
      p ∈ assignedPartitions numPartition taskNum ti₂ → ti₁ = ti₂) ∧
    (∀ ti p, p ∈ assignedPartitions numPartition taskNum ti → p < numPartition) ∧
    assignedPartitions 4 2 0 = [0, 2] ∧ assignedPartitions 4 2 1 = [1, 3] := by
  refine ⟨?_, ?_, ?_, by decide, by decide⟩
  · intro p hp
    exact ⟨p % taskNum, Nat.mod_lt p h1,
      (mem_assignedPartitions numPartition taskNum (p % taskNum) p).mpr ⟨hp, rfl⟩⟩
  · intro ti₁ ti₂ p h₁ h₂
    have e₁ := ((mem_assignedPartitions numPartition taskNum ti₁ p).mp h₁).2
    have e₂ := ((mem_assignedPartitions numPartition taskNum ti₂ p).mp h₂).2
    omega
  · intro ti p h
    exact ((mem_assignedPartitions numPartition taskNum ti p).mp h).1

theorem C5_partition_assignment_witness :
    0 < 2 ∧ (2 : Nat) ≤ 4 ∧ assignedPartitions 4 2 0 = [0, 2] ∧
      assignedPartitions 4 2 1 = [1, 3] :=
  ⟨by decide, by decide, (C5_partition_assignment 4 2 (by decide) (by decide)).2.2.2.1,
    (C5_partition_assignment 4 2 (by decide) (by decide)).2.2.2.2⟩

/-- C2 counterexample: with redundant-leader mode on during training, the
assignment computed for `task_index = 0` (here 4 partitions, 3 tasks) is
`[0, 2]`, not the empty coordinator-only assignment the claim states. -/
theorem C2_counterexample :
    assignedEffective 4 3 0 true true = [0, 2] ∧
      assignedEffective 4 3 0 true true ≠ [] := by
  constructor <;> decide

/-- C2 (amended): with redundant-leader mode on during training, task 0's
index is clamped to 0 rather than excluded: its assignment equals the
non-redundant assignment with task count `task_num - 1` and index 0 — the
same partitions as task 1 — and every task with `task_index ≥ 1` gets the
non-redundant assignment with task count `task_num - 1` and its index
shifted down by one. -/
theorem C2_amended_clamped_leader (numPartition taskNum taskIndex : Nat)
    (h1 : 1 ≤ taskIndex) (h2 : 2 ≤ taskNum) :
    assignedEffective numPartition taskNum 0 true true =
      assignedPartitions numPartition (taskNum - 1) 0 ∧
    assignedEffective numPartition taskNum 0 true true =
      assignedEffective numPartition taskNum 1 true true ∧
    assignedEffective numPartition taskNum taskIndex true true =
      assignedPartitions numPartition (taskNum - 1) (taskIndex - 1) := by
  have hn : effectiveTaskNum taskNum true true = taskNum - 1 := by
    simp [effectiveTaskNum]; omega
  have hi0 : effectiveTaskIndex 0 true true = 0 := by
    simp [effectiveTaskIndex]
  have hi1 : effectiveTaskIndex 1 true true = 0 := by
    simp [effectiveTaskIndex]
  have hik : effectiveTaskIndex taskIndex true true = taskIndex - 1 := by
    simp [effectiveTaskIndex]
  refine ⟨?_, ?_, ?_⟩ <;> simp [assignedEffective, hn, hi0, hi1, hik]

theorem C2_amended_clamped_leader_witness :
    1 ≤ 2 ∧ 2 ≤ 3 ∧
      assignedEffective 4 3 0 true true = assignedPartitions 4 2 0 ∧
      assignedEffective 4 3 2 true true = assignedPartitions 4 2 1 :=
  ⟨by decide, by decide, (C2_amended_clamped_leader 4 3 2 (by decide) (by decide)).1,
    (C2_amended_clamped_leader 4 3 2 (by decide) (by decide)).2.2⟩

/-- C8: pipeline construction (`_get_topics`) fails — the
`assert len(topics) > 0` fires, modelled by `none` — exactly when the
computed partition assignment for the current task is empty; a non-empty
assignment never fails this check. -/
theorem C8_empty_assignment_error (numPartition taskNum taskIndex : Nat)
    (chiefRedundant isTrain : Bool) (m : OffsetMap) :
    getTopics numPartition taskNum taskIndex chiefRedundant isTrain m = none ↔
      assignedEffective numPartition taskNum taskIndex chiefRedundant isTrain = [] := by
  cases hc : assignedEffective numPartition taskNum taskIndex chiefRedundant isTrain with
  | nil => simp [getTopics, hc]
  | cons a l => simp [getTopics, hc]

/-- Value of a decimal digit string, most significant first. -/
def digitsToNat (s : List Char) : Nat :=
  s.foldl (fun a c => a * 10 + (c.toNat - '0'.toNat)) 0

/-- Python `int(s)` on the plain numeric literals that occur here: an
optional sign followed by a non-empty run of decimal digits; anything else
raises `ValueError`, modelled by `none`. (Python also strips surrounding
whitespace and accepts digit-group underscores; those forms never occur in
the offset strings this code handles and are not modelled.) -/
def parsePyInt : List Char → Option Int
  | [] => none
  | '-' :: rest =>
    if rest ≠ [] && rest.all Char.isDigit then some (-(digitsToNat rest : Int)) else none
  | '+' :: rest =>
    if rest ≠ [] && rest.all Char.isDigit then some (digitsToNat rest : Int) else none
  | s =>
    if s.all Char.isDigit then some (digitsToNat s : Int) else none

/-- Python `kv.split(':')` on a character list. -/
def splitOnColon : List Char → List (List Char)
  | [] => [[]]
  | c :: rest =>
    let r := splitOnColon rest
    if c == ':' then [] :: r
    else
      match r with
      | [] => [[c]]
      | g :: gs => (c :: g) :: gs

/-- Parse one `partition:offset` token as `_parse_offset` does:
`k, v = kv.split(':')` (exactly two pieces, else `ValueError`), then
`int(k)` and `int(v)`. `none` models the raised exception. -/
def parseOffsetKV (kv : List Char) : Option (Int × Int) :=
  match splitOnColon kv with
  | [k, v] =>
    match parsePyInt k, parsePyInt v with
    | some ki, some vi => some (ki, vi)
    | _, _ => none
  | _ => none

/-- The loop of `_parse_offset` over the batch's offset-metadata tokens:
each parsed pair max-updates `self._task_offset_dict`; an unparseable token
raises out of the loop, modelled by `none`. -/
def parseOffsetFold : List (List Char) → OffsetMap → Option OffsetMap
  | [], m => some m
  | kv :: rest, m =>
    match parseOffsetKV kv with
    | none => none
    | some p => parseOffsetFold rest (observeOffset m p.1 p.2)

/-- C3 counterexample: a batch whose first offset-metadata token `"abc"`
does not parse makes `_parse_offset` raise (`none`) — the following
well-formed token `"1:5"` is not processed, even though on its own it
would be. The claim's skip-and-continue behaviour would instead have
produced the map `{1: 5}`. -/
theorem C3_counterexample :
    parseOffsetFold ["abc".toList, "1:5".toList] emptyOffsets = none ∧
      (parseOffsetFold ["1:5".toList] emptyOffsets).isSome = true := by
  constructor
  · rfl
  · rfl

/-- C3 (amended): an offset-metadata token that does not parse as an
integer `partition:offset` pair makes the offset-tracking step raise an
exception, aborting the parse of that batch's metadata (no pair after the
first malformed token is applied); it does not skip the pair and continue. -/
theorem C3_amended_abort (tokens : List (List Char)) (m : OffsetMap)
    (t : List Char) (ht : t ∈ tokens) (hbad : parseOffsetKV t = none) :
    parseOffsetFold tokens m = none := by
  induction tokens generalizing m with
  | nil => cases ht
  | cons kv rest ih =>
    rw [parseOffsetFold]
    cases hkv : parseOffsetKV kv with
    | none => rfl
    | some p =>
      rcases List.mem_cons.mp ht with h | h
      · rw [h, hkv] at hbad; cases hbad
      · exact ih _ h

theorem C3_amended_abort_witness :
    "abc".toList ∈ ["xy:3".toList, "abc".toList] ∧
      parseOffsetKV "abc".toList = none ∧
      parseOffsetFold ["xy:3".toList, "abc".toList] emptyOffsets = none :=
  ⟨by decide, by decide,
    C3_amended_abort ["xy:3".toList, "abc".toList] emptyOffsets
      "abc".toList (by decide) (by decide)⟩

/-- The loop of `restore` over the sidecar JSON dict (keys are strings,
values ints): `k = int(k)` — a non-integer key raises, modelled by `none` —
then the max-guarded insert into the freshly cleared `self._offset_dict`. -/
def restoreLoop : List (List Char × Int) → OffsetMap → Option OffsetMap
  | [], acc => some acc
  | kv :: rest, acc =>
    match parsePyInt kv.1 with
    | none => none
    | some k => restoreLoop rest (observeOffset acc k kv.2)

/-- `KafkaInput.restore`: if `checkpoint_path` is `None` or the `.offset`
sidecar does not exist (`sidecar = none`), the in-memory `self._offset_dict`
is left unchanged; otherwise the code sets `self._offset_dict = {}` and
folds the sidecar's entries into the fresh dict. -/
def restore (sidecar : Option (List (List Char × Int))) (m : OffsetMap) :
    Option OffsetMap :=
  match sidecar with
  | none => some m
  | some d => restoreLoop d emptyOffsets

/-- The in-memory map before restore in the C1 counterexample: the resolver
produced offset 50 for partition 0. -/
def c1prior : OffsetMap := mapSet emptyOffsets 0 50

/-- C1 counterexample: restore does not merge by max — with in-memory map
`{0: 50}` and persisted sidecar `{"0": 10}`, the post-restore map holds
`{0: 10}`: partition 0's offset, already present in the in-memory map, was
lowered from 50 to 10. -/
theorem C1_counterexample :
    c1prior 0 = some 50 ∧
      (restore (some [("0".toList, 10)]) c1prior).map (fun mm => mm 0) =
        some (some 10) := by
  constructor
  · rfl
  · rfl

/-- The sidecar contents of the spec's C1 scenario: `{"0": 10, "1": 20}`. -/
def c1file : List (List Char × Int) := [("0".toList, 10), ("1".toList, 20)]

/-- The resolver-produced in-memory map of the spec's C1 scenario:
`{0: 0, 1: 0, 2: 0}`. -/
def c1resolver : OffsetMap :=
  mapSet (mapSet (mapSet emptyOffsets 0 0) 1 0) 2 0

/-- C1 (amended): when the sidecar exists, `restore` discards the in-memory
map entirely and rebuilds `self._offset_dict` from the sidecar alone (the
`max` guard in its loop only arbitrates between the file's own duplicate
integer keys), so a resolver-produced offset larger than the persisted one
is lowered. The spec's scenario still comes out as stated — persisted
`{0: 10, 1: 20}` over resolver map `{0: 0, 1: 0, 2: 0}` yields effective
start offsets `{0: 10, 1: 20, 2: 0}` — because `_get_topics` defaults the
dropped partition 2 to offset 0 and the resolver offsets were all 0. -/
theorem C1_amended_restore_replaces (prior prior2 : OffsetMap)
    (d : List (List Char × Int)) :
    restore (some d) prior = restore (some d) prior2 ∧
    restore (some d) prior = restoreLoop d emptyOffsets ∧
    (restore (some c1file) c1resolver).map
        (fun mm => [startOffset mm 0, startOffset mm 1, startOffset mm 2]) =
      some [10, 20, 0] := by
  refine ⟨rfl, rfl, ?_⟩
  rfl

/-- The loop of the timestamp branch of `KafkaInput.__init__`:
`self._offset_dict[part.partition] = part_offsets[part].offset` for every
partition of the topic. `offsets_for_times` yields `None` for a partition
when the broker finds no offset at or after the timestamp, and `.offset`
on `None` raises, modelled by `none`. -/
def tsLoop (lookup : Nat → Option Int) : List Nat → OffsetMap → Option OffsetMap
  | [], acc => some acc
  | p :: rest, acc =>
    match lookup p with
    | none => none
    | some off => tsLoop lookup rest (mapSet acc (p : Int) off)

/-- Timestamp-mode offset resolution over all partitions of the topic,
starting from the empty `self._offset_dict`. -/
def resolveByTimestamp (lookup : Nat → Option Int) (partitions : List Nat) :
    Option OffsetMap :=
  tsLoop lookup partitions emptyOffsets

/-- The loop of the explicit branch of `KafkaInput.__init__`:
`for part in offset_dict: self._offset_dict[int(part)] = offset_dict[part]`;
a key on which `int` raises is modelled by `none`. -/
def explicitLoop : List (List Char × Int) → OffsetMap → Option OffsetMap
  | [], acc => some acc
  | kv :: rest, acc =>
    match parsePyInt kv.1 with
    | none => none
    | some k => explicitLoop rest (mapSet acc k kv.2)

/-- Explicit-map offset resolution, starting from the empty
`self._offset_dict`. -/
def resolveExplicit (pairs : List (List Char × Int)) : Option OffsetMap :=
  explicitLoop pairs emptyOffsets

/-- `pat` is a prefix of `s`. -/
def startsWithChars : List Char → List Char → Bool
  | [], _ => true
  | _ :: _, [] => false
  | a :: as, b :: bs => a == b && startsWithChars as bs

/-- Python's substring test `pat in s`. -/
def hasSub (pat : List Char) : List Char → Bool
  | [] => startsWithChars pat []
  | c :: rest => startsWithChars pat (c :: rest) || hasSub pat rest

/-- The literal probed by `if 'timestamp' in self._kafka.offset_info`. -/
def timestampKey : List Char := "timestamp".toList

/-- Offset resolution of `KafkaInput.__init__` on a non-empty
`offset_info`. `raw` is the raw config string; `tsVal` is the parsed JSON
object's value under the key `'timestamp'` (`none` when absent, in which
case `offset_dict['timestamp']` raises `KeyError`); `pairs` are the parsed
object's entries as partition-key/offset pairs; `lookup part tsMs` is the
broker's `offsets_for_times` answer for a partition at a millisecond
timestamp (the source multiplies the configured seconds value by 1000). -/
def resolveOffsetInfo (raw : List Char) (tsVal : Option Int)
    (pairs : List (List Char × Int)) (lookup : Nat → Int → Option Int)
    (partitions : List Nat) : Option OffsetMap :=
  if hasSub timestampKey raw then
    match tsVal with
    | none => none
    | some ts => resolveByTimestamp (fun p => lookup p (ts * 1000)) partitions

  else resolveExplicit pairs

theorem tsLoop_none (lookup : Nat → Option Int) (p : Nat) (h : lookup p = none) :
    ∀ (l : List Nat) (acc : OffsetMap), p ∈ l → tsLoop lookup l acc = none := by
  intro l
  induction l with
  | nil => intro acc hm; cases hm
  | cons q rest ih =>
    intro acc hm
    rw [tsLoop]
    cases hq : lookup q with
    | none => rfl
    | some off =>
      rcases List.mem_cons.mp hm with he | he
      · rw [he, hq] at h; cases h
      · exact ih _ he

/-- C6: in timestamp mode, if the broker-side time-indexed lookup reports
no offset for some partition of the topic (and hence for any partition the
task is assigned), offset resolution raises instead of producing a map —
no partition is silently defaulted to a start position. -/
theorem C6_timestamp_not_found_fatal (lookup : Nat → Option Int)
    (partitions : List Nat) (p : Nat)
    (hp : p ∈ partitions) (h : lookup p = none) :
    resolveByTimestamp lookup partitions = none :=
  tsLoop_none lookup p h partitions emptyOffsets hp

theorem C6_timestamp_not_found_fatal_witness :
    resolveByTimestamp (fun q => if q = 0 then none else some 3) [1, 0] = none :=
  C6_timestamp_not_found_fatal (fun q => if q = 0 then none else some 3)
    [1, 0] 0 (by decide) (by decide)

theorem explicitLoop_skip (p : Int) :
    ∀ (pairs : List (List Char × Int)) (acc m : OffsetMap),
      explicitLoop pairs acc = some m →
      (∀ kv ∈ pairs, parsePyInt kv.1 ≠ some p) → m p = acc p := by
  intro pairs
  induction pairs with
  | nil =>
    intro acc m hm _
    cases hm
    rfl
  | cons kv rest ih =>
    intro acc m hm hk
    rw [explicitLoop] at hm
    cases hkv : parsePyInt kv.1 with
    | none => rw [hkv] at hm; cases hm
    | some k =>
      rw [hkv] at hm
      have hne : k ≠ p := by
        intro he
        exact hk kv (List.mem_cons_self kv rest) (by rw [hkv, he])
      have := ih _ m hm (fun kv2 h2 => hk kv2 (List.mem_cons_of_mem _ h2))
      rw [this, mapSet_lookup, if_neg (fun he => hne he.symm)]

/-- The explicit offset config of the spec's C7 scenario:
the JSON object with entries `"0": 10` and `"2": 5`. -/
def c7pairs : List (List Char × Int) := [("0".toList, 10), ("2".toList, 5)]

/-- The resolved `self._offset_dict` for `c7pairs`. -/
def c7resolved : OffsetMap := mapSet (mapSet emptyOffsets 0 10) 2 5

/-- C7: in explicit-map mode, a partition not mentioned in the configured
partition-to-offset map gets effective start offset 0 (the
`self._offset_dict.get(part_id, 0)` default in `_get_topics`); with config
`"0": 10, "2": 5` the start offsets over partitions 0..3 are
`[10, 0, 5, 0]`. -/
theorem C7_explicit_default_zero (pairs : List (List Char × Int))
    (m : OffsetMap) (p : Int)
    (hm : resolveExplicit pairs = some m)
    (hp : ∀ kv ∈ pairs, parsePyInt kv.1 ≠ some p) :
    startOffset m p = 0 ∧
    (resolveExplicit c7pairs).map
        (fun mm => [startOffset mm 0, startOffset mm 1,
          startOffset mm 2, startOffset mm 3]) =
      some [10, 0, 5, 0] := by
  constructor
  · have hs := explicitLoop_skip p pairs emptyOffsets m hm hp
    rw [startOffset, hs]
    rfl
  · rfl

theorem C7_explicit_default_zero_witness :
    startOffset c7resolved 1 = 0 ∧
      (resolveExplicit c7pairs).map
          (fun mm => [startOffset mm 0, startOffset mm 1,
            startOffset mm 2, startOffset mm 3]) =
        some [10, 0, 5, 0] :=
  C7_explicit_default_zero c7pairs c7resolved 1 rfl (by decide)

/-- An offset config that reads as an explicit partition map but whose
text contains the substring `timestamp`. -/
def c9rawExplicitish : List Char := "\"0\": 10, \"timestamp_note\": 5".toList

/-- An offset config carrying a timestamp. -/
def c9rawTs : List Char := "\"timestamp\": 2".toList

/-- A broker answer used to instantiate C9. -/
def c9lookup : Nat → Int → Option Int := fun _ tsMs => some tsMs

/-- C9: offset-resolution mode is selected purely by whether the literal
substring `timestamp` occurs in the raw offset-config string: when it
does, timestamp mode runs with the value under the `'timestamp'` key
(times 1000, as milliseconds); explicit-map mode runs only when the
substring is absent; and an explicit-map-looking config whose text merely
mentions `timestamp` still selects timestamp mode. -/
theorem C9_mode_by_substring (raw : List Char) (ts : Int) (tsVal : Option Int)
    (pairs : List (List Char × Int)) (lookup : Nat → Int → Option Int)
    (partitions : List Nat) :
    (hasSub timestampKey raw = true →
      resolveOffsetInfo raw (some ts) pairs lookup partitions =
        resolveByTimestamp (fun p => lookup p (ts * 1000)) partitions) ∧
    (hasSub timestampKey raw = false →
      resolveOffsetInfo raw tsVal pairs lookup partitions =
        resolveExplicit pairs) ∧
    hasSub timestampKey c9rawExplicitish = true := by
  refine ⟨?_, ?_, by decide⟩
  · intro h
    simp [resolveOffsetInfo, h]
  · intro h
    simp [resolveOffsetInfo, h]

theorem C9_mode_by_substring_witness :
    resolveOffsetInfo c9rawTs (some 2) [("0".toList, 7)] c9lookup [0] =
      resolveByTimestamp (fun p => c9lookup p (2 * 1000)) [0] :=
  (C9_mode_by_substring c9rawTs 2 none [("0".toList, 7)] c9lookup [0]).1 (by decide)

theorem taskInit_notmem (m : OffsetMap) :
    ∀ (l : List Nat) (d : OffsetMap) (p : Nat), p ∉ l →
      (l.foldl (fun d (q : Nat) => mapSet d (q : Int) (startOffset m (q : Int))) d)
          (p : Int) =
        d (p : Int) := by
  intro l
  induction l with
  | nil => intro d p _; rfl
  | cons q rest ih =>
    intro d p hp
    rw [List.foldl_cons, ih _ p (fun hc => hp (List.mem_cons_of_mem _ hc)),
      mapSet_lookup, if_neg]
    intro he
    exact hp (by rw [Nat.cast_inj.mp he]; exact List.mem_cons_self q rest)

theorem taskInit_mem (m : OffsetMap) :
    ∀ (l : List Nat) (d : OffsetMap) (p : Nat), p ∈ l →
      (l.foldl (fun d (q : Nat) => mapSet d (q : Int) (startOffset m (q : Int))) d)
          (p : Int) =
        some (startOffset m (p : Int)) := by
  intro l
  induction l with
  | nil => intro d p hp; cases hp
  | cons q rest ih =>
    intro d p hp
    rw [List.foldl_cons]
    by_cases hr : p ∈ rest
    · exact ih _ p hr
    · have hq : p = q := by
        rcases List.mem_cons.mp hp with he | he
        · exact he
        · exact absurd he hr
      rw [taskInit_notmem m rest _ p hr, mapSet_lookup, if_pos (by rw [hq]), hq]

theorem trackFold_ge :
    ∀ (obs : List (Int × Int)) (d : OffsetMap) (p w : Int), d p = some w →
      ∃ v, (obs.foldl trackStep d) p = some v ∧ w ≤ v := by
  intro obs
  induction obs with
  | nil => intro d p w h; exact ⟨w, h, le_refl w⟩
  | cons kv rest ih =>
    intro d p w h
    rw [List.foldl_cons]
    by_cases hk : p = kv.1
    · have hstep : trackStep d kv p = some (max w kv.2) := by
        rw [trackStep, observeOffset_lookup, if_pos hk, h]
        rfl
      obtain ⟨v, hv, hwv⟩ := ih _ p (max w kv.2) hstep
      exact ⟨v, hv, le_trans (le_max_left w kv.2) hwv⟩
    · have hstep : trackStep d kv p = some w := by
        rw [trackStep, observeOffset_lookup, if_neg hk, h]
      exact ih _ p w hstep

/-- C10: immediately after `_get_topics` rebuilds `self._task_offset_dict`,
the dict maps every assigned partition to its resolved start offset; and
after any sequence of `_parse_offset` observations from that initial state,
every assigned partition is still present with a value at least its start
offset — even when no offset, or only smaller offsets, were observed for
it. -/
theorem C10_init_covers_assigned (numPartition taskNum taskIndex : Nat)
    (chiefRedundant isTrain : Bool) (m : OffsetMap)
    (obs : List (Int × Int)) (p : Nat)
    (hp : p ∈ assignedEffective numPartition taskNum taskIndex chiefRedundant isTrain) :
    taskOffsetInit m (assignedEffective numPartition taskNum taskIndex chiefRedundant isTrain)
        (p : Int) = some (startOffset m (p : Int)) ∧
    ∃ v, (obs.foldl trackStep
        (taskOffsetInit m
          (assignedEffective numPartition taskNum taskIndex chiefRedundant isTrain)))
        (p : Int) = some v ∧ startOffset m (p : Int) ≤ v := by
  have hinit := taskInit_mem m
    (assignedEffective numPartition taskNum taskIndex chiefRedundant isTrain)
    emptyOffsets p hp
  unfold taskOffsetInit
  exact ⟨hinit, trackFold_ge obs _ (p : Int) (startOffset m (p : Int)) hinit⟩

theorem C10_init_covers_assigned_witness :
    (0 : Nat) ∈ assignedEffective 2 1 0 false false ∧
      (taskOffsetInit c1prior (assignedEffective 2 1 0 false false) ((0 : Nat) : Int) =
          some (startOffset c1prior ((0 : Nat) : Int)) ∧
        ∃ v, ([((0 : Int), (7 : Int))].foldl trackStep
            (taskOffsetInit c1prior (assignedEffective 2 1 0 false false)))
            ((0 : Nat) : Int) = some v ∧ startOffset c1prior ((0 : Nat) : Int) ≤ v) :=
  ⟨by decide, C10_init_covers_assigned 2 1 0 false false c1prior
    [((0 : Int), (7 : Int))] 0 (by decide)⟩

end EasyRec
